import Mathlib

/-!
Verification of the description-mining and consistency-scoring engine of the
pl-apartment-backend repository (an Otodom listing summarizer).

The repository holds four revisions of the same server:
  * `src/scraper/otodomScraper.js` (second embedded document, the most
    complete revision: additional fees, trust breakdown, listing intel) —
    identical, modulo text encoding, to `src/unnamed/part_001`;
  * `src/server.js` — an intermediate revision (looser utility band,
    admin-fee substitution policy);
  * `src/unnamed/part_002` — an earlier revision (different deposit band and
    deposit-mismatch formula);
  * `src/unnamed/part_000` — an early revision without the description parser.

Modelling conventions:
  * JavaScript numbers that the code obtains from `parseInt` over digit
    captures are modelled as `Nat`; JavaScript truthiness of a
    number-or-null value is `jsTruthy` (`null` and `0` are falsy).
  * The regex scanning phase is modelled by the list of numeric captures it
    yields, in scan order (each regex requires at least one digit, so the
    empty text yields no captures); the acceptance, filtering, aggregation
    and reconciliation logic downstream of the regexes is translated
    literally.
  * `text.includes(pat)` on the lower-cased combined description is modelled
    as the substring (infix) test on `List Char`.
  * Floating-point comparisons against `0.2 * x` and `0.6 * x` are modelled
    by the exact integer comparisons `5 * d > x` and `5 * a > 3 * r`: for
    integer operands in the script's ranges the double computation
    `x * 0.2` (resp. `x * 0.6`) rounds to the exact value `x / 5` whenever
    `x` is a multiple of 5 (the error `x·2⁻⁵⁴` is below half an ulp), and in
    every other case the two sides are at least 0.2 apart, so the double
    comparison coincides with the exact rational one.
-/

/-- Truthiness of a JavaScript number-or-null value: `null` and `0` are
falsy, every other number is truthy. -/
def jsTruthy : Option Nat → Bool
  | none => false
  | some n => n != 0

/-- A hidden-utilities estimate (`result.hiddenUtilities` of
`parseDescriptionForHiddenInfo`): `{ min, max, avg }`. -/
structure UtilityEstimate where
  min : Nat
  max : Nat
  avg : Nat
deriving DecidableEq, Repr

/-- Update of the running `utilityMin` by an accepted value
(`if (!utilityMin || val1 < utilityMin) utilityMin = val1;`,
otodomScraper.js line 172 / server.js line 91). -/
def utilMinUpd (umin : Option Nat) (v : Nat) : Option Nat :=
  match umin with
  | none => some v
  | some m => if m = 0 then some v else if v < m then some v else some m

/-- Update of the running `utilityMax` by an accepted value
(`if (!utilityMax || val1 > utilityMax) utilityMax = val1;`,
otodomScraper.js line 173 / server.js line 92). -/
def utilMaxUpd (umax : Option Nat) (v : Nat) : Option Nat :=
  match umax with
  | none => some v
  | some m => if m = 0 then some v else if v > m then some v else some m

/-- One step of the utilities loop over a regex match `(val1, val2?)`
(otodomScraper.js lines 164-179 / server.js lines 84-98): `val1` updates
both running bounds, an optional `val2` only the upper bound, each guarded
by truthiness and by the revision's plausibility band `accept`. -/
def utilStep (accept : Nat → Bool) (st : Option Nat × Option Nat)
    (m : Nat × Option Nat) : Option Nat × Option Nat :=
  let st1 :=
    if m.1 != 0 && accept m.1 then (utilMinUpd st.1 m.1, utilMaxUpd st.2 m.1)
    else st
  match m.2 with
  | some v2 => if v2 != 0 && accept v2 then (st1.1, utilMaxUpd st1.2 v2) else st1
  | none => st1

/-- The strict per-person utility plausibility band of the most complete
revision (`val1 >= 50 && val1 <= 500`, otodomScraper.js line 171,
src/unnamed/part_001 line 92). -/
def utilBand50 (v : Nat) : Bool := decide (50 ≤ v ∧ v ≤ 500)

/-- The looser band of the src/server.js revision
(`val1 > 20 && val1 < 1000`, server.js line 90). -/
def serverUtilBand (v : Nat) : Bool := decide (20 < v ∧ v < 1000)

/-- Assembly of `result.hiddenUtilities` from the running bounds
(otodomScraper.js lines 181-187 / server.js lines 100-106): each side
defaults to the other (`utilityMin || utilityMax`), and
`avg = Math.round((min + max) / 2)`, which on naturals is
`(min + max + 1) / 2` (halves round up). -/
def assembleUtilities (st : Option Nat × Option Nat) : Option UtilityEstimate :=
  if jsTruthy st.1 || jsTruthy st.2 then
    let m := if jsTruthy st.1 then st.1.getD 0 else st.2.getD 0
    let M := if jsTruthy st.2 then st.2.getD 0 else st.1.getD 0
    some ⟨m, M, (m + M + 1) / 2⟩
  else none

/-- `hiddenUtilities` of the most complete revision (otodomScraper.js lines
155-187), over the list of `(val1, val2?)` captures of its utility regexes. -/
def hiddenUtilities (ms : List (Nat × Option Nat)) : Option UtilityEstimate :=
  assembleUtilities (ms.foldl (utilStep utilBand50) (none, none))

/-- `hiddenUtilities` of the src/server.js revision (server.js lines 74-106),
which uses the looser `(20, 1000)` band. -/
def serverHiddenUtilities (ms : List (Nat × Option Nat)) : Option UtilityEstimate :=
  assembleUtilities (ms.foldl (utilStep serverUtilBand) (none, none))

/-- Acceptance test of the deposit scan in server.js line 65 /
otodomScraper.js line 145 (`amount && amount > 500 && amount < 50000`);
`amount` is the capture with thousands separators stripped. -/
def acceptDeposit (n : Nat) : Bool := decide (n ≠ 0 ∧ 500 < n ∧ n < 50000)

/-- Acceptance test of the deposit scan in the src/unnamed/part_002 revision,
line 70 (`amount && amount > 100 && amount < 50000`). -/
def part002AcceptDeposit (n : Nat) : Bool := decide (n ≠ 0 ∧ 100 < n ∧ n < 50000)

/-- The deposit scan (server.js lines 61-71, part_002 lines 66-77): patterns
in order, matches of each pattern in order, first accepted amount wins and
stops all further scanning. `mss` is the list, per pattern, of that
pattern's numeric captures in match order. -/
def depositScan (accept : Nat → Bool) : List (List Nat) → Option Nat
  | [] => none
  | ms :: rest =>
    match ms.find? accept with
    | some v => some v
    | none => depositScan accept rest

/-- `result.hiddenDeposit` of the canonical revisions (server.js lines
54-71, otodomScraper.js lines 134-151). -/
def hiddenDeposit (mss : List (List Nat)) : Option Nat :=
  depositScan acceptDeposit mss

/-- `result.hiddenDeposit` of the src/unnamed/part_002 revision (lines
57-77). -/
def part002HiddenDeposit (mss : List (List Nat)) : Option Nat :=
  depositScan part002AcceptDeposit mss

/-- Fee categories of `result.additionalFees` (otodomScraper.js lines
291-333). -/
inductive FeeType where
  | internet
  | tv
  | internet_tv
  | parking
deriving DecidableEq, Repr

/-- A fee regex match: the parsed amount and whether
`isNumberInBadContext` holds of the 50-character window around the match
(otodomScraper.js lines 270-289). -/
structure FeeMatch where
  amount : Nat
  badContext : Bool
deriving DecidableEq, Repr

/-- An entry of `result.additionalFees`. -/
structure Fee where
  type : FeeType
  amount : Nat
deriving DecidableEq, Repr

/-- The additional-fees pipeline of the most complete revision
(otodomScraper.js lines 291-333, src/unnamed/part_001 lines 212-254):
internet (band 40-200, bad-context check), then TV (band 30-150, bad-context
check, only when no internet fee was accepted), then the combined
internet+TV match (band 60-250, no bad-context check; on acceptance it
filters out the individual internet/tv entries), then parking (band
100-500, bad-context check). -/
def internetFees (im : Option FeeMatch) : List Fee :=
  match im with
  | some m =>
    if 40 ≤ m.amount ∧ m.amount ≤ 200 ∧ m.badContext = false then
      [⟨FeeType.internet, m.amount⟩]
    else []
  | none => []

/-- The TV stage (otodomScraper.js lines 303-311): only considered when no
internet fee is already in the list. -/
def tvFees (tm : Option FeeMatch) (fees : List Fee) : List Fee :=
  match tm with
  | some m =>
    if fees.any (fun f => f.type == FeeType.internet) then fees
    else if 30 ≤ m.amount ∧ m.amount ≤ 150 ∧ m.badContext = false then
      fees ++ [⟨FeeType.tv, m.amount⟩]
    else fees
  | none => fees

/-- The combined internet+TV stage (otodomScraper.js lines 314-322): an
accepted combo match (band 60-250, no bad-context check) removes the
individual internet/tv entries and appends the combined one. -/
def comboFees (cm : Option Nat) (fees : List Fee) : List Fee :=
  match cm with
  | some a =>
    if 60 ≤ a ∧ a ≤ 250 then
      (fees.filter fun f =>
        decide (f.type ≠ FeeType.internet ∧ f.type ≠ FeeType.tv)) ++
        [⟨FeeType.internet_tv, a⟩]
    else fees
  | none => fees

/-- The parking stage (otodomScraper.js lines 325-333). -/
def parkingFees (pm : Option FeeMatch) (fees : List Fee) : List Fee :=
  match pm with
  | some m =>
    if 100 ≤ m.amount ∧ m.amount ≤ 500 ∧ m.badContext = false then
      fees ++ [⟨FeeType.parking, m.amount⟩]
    else fees
  | none => fees

/-- The whole additional-fees pipeline in source order: internet, then TV,
then the combined match, then parking. -/
def additionalFees (im tm : Option FeeMatch) (cm : Option Nat)
    (pm : Option FeeMatch) : List Fee :=
  parkingFees pm (comboFees cm (tvFees tm (internetFees im)))

/-- `result.totalAdditionalFees` (otodomScraper.js line 368): the sum of the
accepted fee amounts. -/
def totalAdditionalFees (fees : List Fee) : Nat :=
  fees.foldl (fun s f => s + f.amount) 0

/-- Substring test on the lower-cased combined description,
`combined.includes(pat)`. -/
def includes (pat t : List Char) : Bool := decide (pat <:+: t)

/-- The registration (zameldowanie) classifier (otodomScraper.js lines
221-232, server.js lines 140-151): evaluated only when the text mentions
registration at all; explicit negations resolve to `false`, explicit
affirmations to `true`, otherwise the flag stays unknown (`null`). -/
def classifyRegistration (t : List Char) : Option Bool :=
  if includes ("zameldowanie".toList) t || includes ("registration".toList) t ||
      includes ("meldun".toList) t then
    if includes ("bez zameldowania".toList) t ||
        includes ("no registration".toList) t ||
        includes ("without registration".toList) t ||
        includes ("nie ma możliwości zameld".toList) t then
      some false
    else if includes ("możliwość zameld".toList) t ||
        includes ("registration possible".toList) t ||
        includes ("zameldowanie możliwe".toList) t then
      some true
    else none
  else none

/-- The notary presence check (otodomScraper.js line 209). -/
def detectNotary (t : List Char) : Bool :=
  includes ("notary".toList) t || includes ("notariusz".toList) t ||
    includes ("notarial".toList) t

/-- Advertiser categories of the text classifier. -/
inductive AdvertiserKind where
  | agency
  | privateParty
deriving DecidableEq, Repr

/-- The advertiser-type classifier (otodomScraper.js lines 235-242): the
agency keyword set is checked before the private keyword set, so agency
wins when both match. -/
def classifyAdvertiser (t : List Char) : Option AdvertiserKind :=
  if includes ("biuro".toList) t || includes ("agency".toList) t ||
      includes ("pośrednik".toList) t || includes ("agent".toList) t ||
      includes ("prowizja".toList) t || includes ("commission".toList) t then
    some AdvertiserKind.agency
  else if includes ("prywat".toList) t || includes ("private".toList) t ||
      includes ("owner".toList) t || includes ("właściciel".toList) t ||
      includes ("bez prowizji".toList) t ||
      includes ("no commission".toList) t ||
      includes ("bezpośrednio".toList) t then
    some AdvertiserKind.privateParty
  else none

/-- The contract-terms scan (otodomScraper.js lines 190-206): per pattern,
its first match only (`pattern.exec`); the first pattern whose months lie in
`1..36` wins. `caps` is the first capture of each pattern in order, when
the pattern matched at all. -/
def contractScan : List (Option Nat) → Option Nat
  | [] => none
  | c :: rest =>
    match c with
    | some n => if 1 ≤ n ∧ n ≤ 36 then some n else contractScan rest
    | none => contractScan rest

/-- The numeric captures the regex phase of `parseDescriptionForHiddenInfo`
yields on a given text, in scan order. -/
structure DescriptionCaptures where
  depositCaps : List (List Nat)
  utilityCaps : List (Nat × Option Nat)
  contractCaps : List (Option Nat)
  internetMatch : Option FeeMatch
  tvMatch : Option FeeMatch
  comboMatch : Option Nat
  parkingMatch : Option FeeMatch
deriving DecidableEq, Repr

/-- The captures of the empty text: every pattern of the parser requires at
least one digit, so nothing matches. -/
def noCaptures : DescriptionCaptures := ⟨[], [], [], none, none, none, none⟩

/-- The fields of `parseDescriptionForHiddenInfo`'s result the claims are
about (otodomScraper.js lines 118-371). -/
structure ParseResult where
  hiddenDeposit : Option Nat
  hiddenUtilities : Option UtilityEstimate
  contractTerms : Option Nat
  notaryRequired : Bool
  registrationAllowed : Option Bool
  advertiserType : Option AdvertiserKind
  additionalFees : List Fee
  totalAdditionalFees : Nat
deriving DecidableEq, Repr

/-- `parseDescriptionForHiddenInfo` of the most complete revision
(otodomScraper.js lines 118-371) over the combined lower-cased text `t` and
the captures of its regex phase. -/
def parseDescriptionForHiddenInfo (t : List Char) (c : DescriptionCaptures) :
    ParseResult :=
  let fees := additionalFees c.internetMatch c.tvMatch c.comboMatch c.parkingMatch
  { hiddenDeposit := hiddenDeposit c.depositCaps
    hiddenUtilities := hiddenUtilities c.utilityCaps
    contractTerms := contractScan c.contractCaps
    notaryRequired := detectNotary t
    registrationAllowed := classifyRegistration t
    advertiserType := classifyAdvertiser t
    additionalFees := fees
    totalAdditionalFees := totalAdditionalFees fees }

/-- Severities of inconsistency records. -/
inductive Severity where
  | high
  | medium
deriving DecidableEq, Repr

/-- The kinds of inconsistency the detector emits. -/
inductive IncKind where
  | deposit_mismatch
  | hidden_utilities
  | no_registration
deriving DecidableEq, Repr

/-- One inconsistency record (`type`, `severity`, `message`). -/
structure Inconsistency where
  type : IncKind
  severity : Severity
  message : List Char
deriving DecidableEq, Repr

/-- The deposit-mismatch message of `detectInconsistencies` (server.js line
198): both amounts appear verbatim. -/
def depositMismatchMessage (listed desc : Nat) : List Char :=
  ("Deposit mismatch: Listed as ".toList) ++ (Nat.repr listed).toList ++
    (" PLN but description mentions ".toList) ++ (Nat.repr desc).toList ++
    (" PLN".toList)

/-- The hidden-utilities message of `detectInconsistencies` (server.js line
210). -/
def hiddenUtilitiesMessage (u : UtilityEstimate) : List Char :=
  ("Utilities are metered: ~".toList) ++ (Nat.repr u.min).toList ++
    ("-".toList) ++ (Nat.repr u.max).toList ++
    (" PLN/month (not included in listed admin fee)".toList)

/-- The no-registration message of `detectInconsistencies` (server.js line
219). -/
def noRegistrationMessage : List Char :=
  ("Registration (zameldowanie) not possible - may affect visa/residence permits".toList)

/-- `detectInconsistencies` (server.js lines 187-224, otodomScraper.js lines
373-413, identical): a high deposit mismatch when both deposits are truthy
and `Math.abs(desc - listed) > listed * 0.2` (exactly `5·|e−d| > d` on
integers), a medium hidden-utilities record when a utility estimate exists
and the structured admin fee is falsy or below 10, and a medium
no-registration record when registration resolved to `false`. -/
def detectInconsistencies (depositPLN adminPLN : Option Nat)
    (hiddenDep : Option Nat) (hiddenUtils : Option UtilityEstimate)
    (registration : Option Bool) : List Inconsistency :=
  (match hiddenDep, depositPLN with
   | some e, some d =>
     if e ≠ 0 ∧ d ≠ 0 ∧ 5 * Nat.dist e d > d then
       [⟨IncKind.deposit_mismatch, Severity.high, depositMismatchMessage d e⟩]
     else []
   | _, _ => []) ++
  (match hiddenUtils with
   | some u =>
     if ¬ jsTruthy adminPLN ∨ adminPLN.getD 0 < 10 then
       [⟨IncKind.hidden_utilities, Severity.medium, hiddenUtilitiesMessage u⟩]
     else []
   | none => []) ++
  (if registration = some false then
     [⟨IncKind.no_registration, Severity.medium, noRegistrationMessage⟩]
   else [])

/-- Whether a record list holds a deposit-mismatch record. -/
def hasDepositMismatch (l : List Inconsistency) : Bool :=
  l.any (fun i => i.type == IncKind.deposit_mismatch)

/-- The deposit-mismatch message of the src/unnamed/part_002 revision (line
156). -/
def part002Message (listed desc : Nat) : List Char :=
  ("Deposit mismatch: Listed as ".toList) ++ (Nat.repr listed).toList ++
    (" PLN but description says ".toList) ++ (Nat.repr desc).toList ++
    (" PLN".toList)

/-- The deposit-mismatch block of the src/unnamed/part_002 revision (lines
143-159): `percentDiff = |e−d| / max(e,d) * 100 > 20`, i.e. exactly
`5·|e−d| > max(e,d)` on integers — the denominator is the larger of the two
values, not the structured one. -/
def part002DetectDepositMismatch (structuredDeposit hiddenDep : Option Nat) :
    List Inconsistency :=
  match hiddenDep, structuredDeposit with
  | some e, some d =>
    if e ≠ 0 ∧ d ≠ 0 ∧ 5 * Nat.dist e d > max e d then
      [⟨IncKind.deposit_mismatch, Severity.high, part002Message d e⟩]
    else []
  | _, _ => []

/-- Risk levels. -/
inductive Level where
  | Low
  | Medium
  | High
deriving DecidableEq, Repr

/-- The structured-summary fields `assessRisk` reads (server.js lines
679-688): monetary fields, price per m², the (translated) description
text, and whether an availability date is present (truthy). -/
structure RiskSummary where
  rentPLN : Option Nat
  adminPLN : Option Nat
  depositPLN : Option Nat
  pricePerM2 : Option Nat
  descriptionEN : List Char
  availableFrom : Bool
deriving DecidableEq, Repr

/-- The description-analysis fields `assessRisk` reads (server.js lines
690-750). -/
structure RiskAnalysis where
  inconsistencies : List Inconsistency
  hiddenDeposit : Option Nat
  hiddenUtilities : Option UtilityEstimate
  notaryRequired : Bool
  registrationAllowed : Option Bool
deriving DecidableEq, Repr

/-- Points per inconsistency severity (server.js lines 693-699): high adds
3, medium adds 2. -/
def severityPoints : Severity → Nat
  | Severity.high => 3
  | Severity.medium => 2

/-- Accumulated inconsistency points (the loop of server.js lines 691-700). -/
def inconsistencyPoints (l : List Inconsistency) : Nat :=
  l.foldl (fun acc i => acc + severityPoints i.severity) 0

/-- The risk score of `assessRisk` (server.js lines 679-750,
otodomScraper.js lines 1414-1485, identical), as the sum of its
independently triggered additions; `admin > 0.6 * rent` is the exact
`5·admin > 3·rent` (see the file comment on floats). -/
def riskScore (s : RiskSummary) (a : RiskAnalysis) : Nat :=
  inconsistencyPoints a.inconsistencies
  + (if jsTruthy s.rentPLN ∧ jsTruthy s.depositPLN ∧
        s.depositPLN.getD 0 > 2 * s.rentPLN.getD 0 then 2 else 0)
  + (if jsTruthy s.rentPLN ∧ jsTruthy s.adminPLN ∧
        5 * s.adminPLN.getD 0 > 3 * s.rentPLN.getD 0 then 1 else 0)
  + (if jsTruthy s.pricePerM2 ∧ s.pricePerM2.getD 0 > 150 then 2 else 0)
  + (if jsTruthy s.pricePerM2 ∧ s.pricePerM2.getD 0 < 40 then 2 else 0)
  + (if ¬ jsTruthy s.adminPLN ∧ a.hiddenUtilities = none then 1 else 0)
  + (if ¬ jsTruthy s.depositPLN ∧ ¬ jsTruthy a.hiddenDeposit then 1 else 0)
  + (if s.descriptionEN.length < 200 then 1 else 0)
  + (if ¬ s.availableFrom then 1 else 0)
  + (if a.notaryRequired then 1 else 0)
  + (if a.registrationAllowed = some false then 2 else 0)

/-- The level thresholds of `assessRisk` (server.js lines 752-754). -/
def riskLevel (score : Nat) : Level :=
  if 6 ≤ score then Level.High
  else if 3 ≤ score then Level.Medium
  else Level.Low

/-- The confidence of `assessRisk` (server.js line 756):
`Math.max(40, 100 - riskScore * 5)`. -/
def confidence (score : Nat) : Int := max 40 (100 - 5 * (score : Int))

/-- The `{ level, score, confidence }` triple `assessRisk` returns
(server.js line 758). -/
def assessRisk (s : RiskSummary) (a : RiskAnalysis) : Level × Nat × Int :=
  (riskLevel (riskScore s a), riskScore s a, confidence (riskScore s a))

/-- The reconciled true values of the most complete revision. -/
structure Reconciled where
  trueDepositPLN : Option Nat
  trueAdminPLN : Option Nat
  trueTotalPLN : Option Nat
  additionalFeesTotal : Nat
deriving DecidableEq, Repr

/-- The reconciliation block of `parseOtodom` in the most complete revision
(otodomScraper.js lines 1236-1251): the extracted deposit wins only when
truthy and strictly above the structured one (absent taken as 0); the admin
fee is always the structured one (`adminPLN || null`); the total is
`rent + (adminPLN || 0)` when rent is truthy, never folding in utility
estimates or description fees, which stay informational. -/
def scraperReconcile (rentPLN adminPLN depositPLN : Option Nat)
    (a : ParseResult) : Reconciled :=
  { trueDepositPLN :=
      if jsTruthy a.hiddenDeposit ∧ a.hiddenDeposit.getD 0 > depositPLN.getD 0
      then a.hiddenDeposit else depositPLN
    trueAdminPLN := if jsTruthy adminPLN then adminPLN else none
    trueTotalPLN :=
      if jsTruthy rentPLN then some (rentPLN.getD 0 + adminPLN.getD 0) else none
    additionalFeesTotal := a.totalAdditionalFees }

/-- The reconciled true values of the src/server.js revision. -/
structure ServerReconciled where
  trueDepositPLN : Option Nat
  trueAdminPLN : Option Nat
  trueTotalPLN : Option Nat
deriving DecidableEq, Repr

/-- The reconciliation block of `parseOtodom` in the src/server.js revision
(server.js lines 584-594): the deposit rule is the same, but
`trueAdminPLN = hiddenUtilities ? hiddenUtilities.avg : adminPLN` — the
extracted utility average replaces the admin fee whenever a utility
estimate exists, even when a structured admin fee is present — and
`trueTotalPLN = rent + (trueAdminPLN || 0)` folds that average into the
total. -/
def serverReconcile (rentPLN adminPLN depositPLN : Option Nat)
    (hiddenDep : Option Nat) (hiddenUtils : Option UtilityEstimate) :
    ServerReconciled :=
  let trueAdmin : Option Nat :=
    match hiddenUtils with
    | some u => some u.avg
    | none => adminPLN
  { trueDepositPLN :=
      if jsTruthy hiddenDep ∧ hiddenDep.getD 0 > depositPLN.getD 0
      then hiddenDep else depositPLN
    trueAdminPLN := trueAdmin
    trueTotalPLN :=
      if jsTruthy rentPLN then some (rentPLN.getD 0 + trueAdmin.getD 0) else none }

/-- The true-deposit rule of the src/unnamed/part_002 revision (lines
627-636): start from the structured deposit; when a truthy extracted
deposit exists, take it if the structured one is falsy or if it is strictly
larger. -/
def part002TrueDeposit (depositPLN hiddenDep : Option Nat) : Option Nat :=
  match hiddenDep with
  | some e =>
    if e = 0 then depositPLN
    else if ¬ jsTruthy depositPLN then some e
    else if e > depositPLN.getD 0 then some e
    else depositPLN
  | none => depositPLN

/-- Character class of the amount regex `[\d\s]+` of `parsePLNAmount`. -/
def parsePLNChar (c : Char) : Bool := c.isDigit || c.isWhitespace

/-- The first (leftmost, maximal) run of digit-or-whitespace characters,
as `String(str).match(/[\d\s]+/)` finds it. -/
def firstAmountRun : List Char → Option (List Char)
  | [] => none
  | c :: cs =>
    if parsePLNChar c then some (c :: cs.takeWhile parsePLNChar)
    else firstAmountRun cs

/-- Decimal value of a list of digit characters, as `parseInt(·, 10)` reads
a pure digit string. -/
def digitsToNat (ds : List Char) : Nat :=
  ds.foldl (fun n c => 10 * n + (c.toNat - 48)) 0

/-- `parsePLNAmount` (server.js lines 28-34, all revisions identical): a
falsy input gives `null`; otherwise the first digit-or-whitespace run is
taken, whitespace is stripped, and `parseInt` of the remainder is returned,
with `NaN` (an all-whitespace run) mapped to `null`. -/
def parsePLNAmount (s : Option (List Char)) : Option Nat :=
  match s with
  | none => none
  | some cs =>
    if cs.isEmpty then none
    else
      match firstAmountRun cs with
      | none => none
      | some run =>
        let digits := run.filter (fun c => !c.isWhitespace)
        if digits.isEmpty then none else some (digitsToNat digits)

/-- The summary of a request whose structured fields are all absent and
whose description is empty (the empty-input scenario). -/
def emptySummary : RiskSummary := ⟨none, none, none, none, [], false⟩

/-- The analysis of an empty description: no inconsistencies, no extracted
amounts, no flags. -/
def emptyAnalysis : RiskAnalysis := ⟨[], none, none, false, none⟩

/-- The reachable states of the utilities fold: nothing stored yet, only a
running maximum stored, or both bounds stored in order; every stored value
was accepted by the band test. -/
def UtilSt (accept : Nat → Bool) (st : Option Nat × Option Nat) : Prop :=
  st = (none, none) ∨
  (∃ M, st = (none, some M) ∧ accept M = true) ∨
  (∃ m M, st = (some m, some M) ∧ accept m = true ∧ accept M = true ∧ m ≤ M)

/-! ## Helper lemmas -/

/-- The early-exit double loop of the deposit scan is the first accepted
capture over the concatenation of the patterns' captures in order. -/
theorem depositScan_eq_find? (accept : Nat → Bool) (mss : List (List Nat)) :
    depositScan accept mss = mss.flatten.find? accept := by
  induction mss with
  | nil => rfl
  | cons ms rest ih =>
    rw [List.flatten_cons, List.find?_append, ← ih]
    simp only [depositScan]
    cases h : ms.find? accept <;> simp [h, Option.or]

/-! ## Claim theorems -/

/-- C5 (amended to the canonical revisions, server.js lines 54-71 and
otodomScraper.js lines 134-151): the deposit scan accepts the first numeric
capture, in pattern order then match order, whose value is strictly between
500 and 50000, stopping once one is accepted; any extracted deposit lies in
the open interval (500, 50000). The src/unnamed/part_002 revision instead
uses the band (100, 50000) — see the counterexample. -/
theorem hiddenDeposit_first_accepted (mss : List (List Nat)) :
    hiddenDeposit mss = mss.flatten.find? acceptDeposit ∧
      (∀ v, hiddenDeposit mss = some v → 500 < v ∧ v < 50000) := by
  refine ⟨depositScan_eq_find? _ _, fun v hv => ?_⟩
  rw [show hiddenDeposit mss = depositScan acceptDeposit mss from rfl,
    depositScan_eq_find?] at hv
  have h := List.find?_some hv
  simp [acceptDeposit] at h
  exact ⟨h.2.1, h.2.2⟩

/-- C5 counterexample: the src/unnamed/part_002 revision (lines 66-77)
accepts 300 as a deposit, although 300 is not in the claimed band
(500, 50000). -/
theorem part002HiddenDeposit_accepts_300 :
    part002HiddenDeposit [[300]] = some 300 ∧ ¬ (500 < 300) := by decide

/-- C6: the risk level is High exactly when the score reaches 6, Medium
exactly when it lies in [3, 6), Low otherwise, and the confidence
`max(40, 100 - 5·score)` always lies in [40, 100]. -/
theorem riskLevel_confidence_spec (s : Nat) :
    (riskLevel s = Level.High ↔ 6 ≤ s) ∧
    (riskLevel s = Level.Medium ↔ 3 ≤ s ∧ s < 6) ∧
    (riskLevel s = Level.Low ↔ s < 3) ∧
    40 ≤ confidence s ∧ confidence s ≤ 100 := by
  unfold riskLevel confidence
  refine ⟨?_, ?_, ?_, le_max_left _ _, max_le (by omega) (by omega)⟩ <;>
    split_ifs with h1 h2 <;> simp_all <;> omega

/-- C1 (amended): in the most complete revision (otodomScraper.js lines
1242-1251) the reconciliation follows the canonical policy: trueAdminPLN is
the structured admin fee when truthy and null otherwise, trueTotalPLN is
rent plus the structured admin fee (0 when absent) when rent is truthy and
null otherwise, and both are independent of the whole description analysis
— utility estimates and description-only fees are never folded in. The
src/server.js revision violates this — see the counterexample. -/
theorem scraperReconcile_admin_policy (r ad dep : Option Nat)
    (a a' : ParseResult) :
    ((jsTruthy ad = true → (scraperReconcile r ad dep a).trueAdminPLN = ad) ∧
     (jsTruthy ad = false → (scraperReconcile r ad dep a).trueAdminPLN = none)) ∧
    ((jsTruthy r = true →
        (scraperReconcile r ad dep a).trueTotalPLN = some (r.getD 0 + ad.getD 0)) ∧
     (jsTruthy r = false → (scraperReconcile r ad dep a).trueTotalPLN = none)) ∧
    (scraperReconcile r ad dep a).trueAdminPLN =
      (scraperReconcile r ad dep a').trueAdminPLN ∧
    (scraperReconcile r ad dep a).trueTotalPLN =
      (scraperReconcile r ad dep a').trueTotalPLN := by
  unfold scraperReconcile
  refine ⟨⟨?_, ?_⟩, ⟨?_, ?_⟩, rfl, rfl⟩ <;> intro h <;> simp [h]

/-- C1 counterexample: the src/server.js revision (lines 590-594), given a
structured admin fee of 500 and an extracted utility estimate
{min 100, max 200, avg 150}, sets trueAdminPLN to the utility average 150
instead of the structured 500, and folds it into trueTotalPLN
(3000 + 150, not 3000 + 500). -/
theorem serverReconcile_overrides_admin :
    (serverReconcile (some 3000) (some 500) none none
        (some ⟨100, 200, 150⟩)).trueAdminPLN = some 150 ∧
    (serverReconcile (some 3000) (some 500) none none
        (some ⟨100, 200, 150⟩)).trueTotalPLN = some 3150 ∧
    (150 : Nat) ≠ 500 ∧ (3150 : Nat) ≠ 3500 := by decide

/-- C4: the reconciled true deposit is the extracted deposit exactly when
one was extracted and it is strictly greater than the structured deposit
(absent structured treated as 0), and the structured deposit otherwise; the
src/unnamed/part_002 rule (lines 627-636) computes the same value. -/
theorem trueDeposit_rule (r ad dep : Option Nat) (a : ParseResult) :
    ((∀ v, a.hiddenDeposit = some v →
        (v > dep.getD 0 → (scraperReconcile r ad dep a).trueDepositPLN = some v) ∧
        (¬ v > dep.getD 0 → (scraperReconcile r ad dep a).trueDepositPLN = dep)) ∧
     (a.hiddenDeposit = none → (scraperReconcile r ad dep a).trueDepositPLN = dep)) ∧
    part002TrueDeposit dep a.hiddenDeposit =
      (scraperReconcile r ad dep a).trueDepositPLN := by
  unfold scraperReconcile part002TrueDeposit
  rcases hd : a.hiddenDeposit with _ | v
  · simp [jsTruthy]
  · refine ⟨⟨fun w hw => ?_, by simp⟩, ?_⟩
    · cases hw
      constructor <;> intro hgt
      · have hv : v ≠ 0 := by omega
        simp [jsTruthy, hv, hgt]
      · rcases Nat.eq_zero_or_pos v with h0 | h0
        · subst h0; simp [jsTruthy]
        · have hv : (v != 0) = true := by simp; omega
          simp only [jsTruthy, hv]
          simp [hgt]
    · rcases Nat.eq_zero_or_pos v with h0 | h0
      · subst h0
        rcases dep with _ | d <;> simp [jsTruthy]
      · have hv : (v != 0) = true := by simp; omega
        have hv' : v ≠ 0 := by omega
        rcases dep with _ | d
        · simp [jsTruthy, hv', h0]
        · rcases Nat.eq_zero_or_pos d with hd0 | hd0
          · subst hd0; simp [jsTruthy, hv', h0]
          · have hdt : (d != 0) = true := by simp; omega
            simp only [jsTruthy, hv', hdt, Option.getD]
            split_ifs <;> simp_all

/-- `utilMaxUpd` of an accepted stored maximum by an accepted value: the
result is stored, accepted, at least the old maximum and at least the new
value. -/
theorem utilMaxUpd_ok (accept : Nat → Bool) (M v : Nat)
    (hM : accept M = true) (hv : accept v = true) :
    ∃ M2, utilMaxUpd (some M) v = some M2 ∧ accept M2 = true ∧
      (∀ x, x ≤ M → x ≤ M2) ∧ v ≤ M2 := by
  simp only [utilMaxUpd]
  split_ifs with h0 hgt
  · exact ⟨v, rfl, hv, fun x hx => by omega, le_refl v⟩
  · exact ⟨v, rfl, hv, fun x hx => by omega, le_refl v⟩
  · exact ⟨M, rfl, hM, fun x hx => hx, by omega⟩

/-- `utilMinUpd` of an accepted stored minimum by an accepted value: the
result is the new value or the old minimum, and accepted. -/
theorem utilMinUpd_ok (accept : Nat → Bool) (m v : Nat)
    (hm : accept m = true) (hv : accept v = true) :
    ∃ m2, utilMinUpd (some m) v = some m2 ∧ accept m2 = true ∧
      (m2 = v ∨ m2 = m) := by
  simp only [utilMinUpd]
  split_ifs with h0 hlt
  · exact ⟨v, rfl, hv, Or.inl rfl⟩
  · exact ⟨v, rfl, hv, Or.inl rfl⟩
  · exact ⟨m, rfl, hm, Or.inr rfl⟩

/-- Updating only the running maximum by an accepted value preserves the
reachable-state invariant. -/
theorem utilMax2_ok (accept : Nat → Bool) (s : Option Nat × Option Nat)
    (w : Nat) (h : UtilSt accept s) (hw : accept w = true) :
    UtilSt accept (s.1, utilMaxUpd s.2 w) := by
  rcases h with rfl | ⟨M, rfl, haccM⟩ | ⟨mi, M, rfl, haccmi, haccM, hle⟩
  · exact Or.inr (Or.inl ⟨w, by simp [utilMaxUpd], hw⟩)
  · obtain ⟨M2, hM2, haccM2, _, _⟩ := utilMaxUpd_ok accept M w haccM hw
    exact Or.inr (Or.inl ⟨M2, by simp [hM2], haccM2⟩)
  · obtain ⟨M2, hM2, haccM2, hmono, _⟩ := utilMaxUpd_ok accept M w haccM hw
    exact Or.inr (Or.inr ⟨mi, M2, by simp [hM2], haccmi, haccM2, hmono _ hle⟩)

/-- Each step of the utilities loop preserves the reachable-state
invariant. -/
theorem utilStep_ok (accept : Nat → Bool) (st : Option Nat × Option Nat)
    (m : Nat × Option Nat) (h : UtilSt accept st) :
    UtilSt accept (utilStep accept st m) := by
  obtain ⟨v1, v2⟩ := m
  unfold utilStep
  simp only
  generalize hst1 : (if v1 != 0 && accept v1 then
      (utilMinUpd st.1 v1, utilMaxUpd st.2 v1) else st) = s1
  have step1 : UtilSt accept s1 := by
    rw [← hst1]
    split_ifs with hc
    · have hv1 : accept v1 = true := (Bool.and_eq_true _ _ |>.mp hc).2
      rcases h with rfl | ⟨M, rfl, haccM⟩ | ⟨mi, M, rfl, haccmi, haccM, hle⟩
      · exact Or.inr (Or.inr ⟨v1, v1, rfl, hv1, hv1, le_refl _⟩)
      · obtain ⟨M2, hM2, haccM2, _, hvle⟩ := utilMaxUpd_ok accept M v1 haccM hv1
        exact Or.inr (Or.inr ⟨v1, M2, by simp [utilMinUpd, hM2], hv1, haccM2, hvle⟩)
      · obtain ⟨M2, hM2, haccM2, hmono, hvle⟩ := utilMaxUpd_ok accept M v1 haccM hv1
        obtain ⟨m2, hm2, haccm2, hval⟩ := utilMinUpd_ok accept mi v1 haccmi hv1
        refine Or.inr (Or.inr ⟨m2, M2, by simp [hm2, hM2], haccm2, haccM2, ?_⟩)
        rcases hval with rfl | rfl
        · exact hvle
        · exact hmono _ hle
    · exact h
  rcases v2 with _ | w
  · exact step1
  · simp only
    split_ifs with hc
    · exact utilMax2_ok accept s1 w step1 (Bool.and_eq_true _ _ |>.mp hc).2
    · exact step1

/-- The utilities fold from the empty state stays in the reachable-state
invariant. -/
theorem utilFold_ok (accept : Nat → Bool) (ms : List (Nat × Option Nat)) :
    UtilSt accept (ms.foldl (utilStep accept) (none, none)) := by
  have h0 : UtilSt accept ((none, none) : Option Nat × Option Nat) := Or.inl rfl
  revert h0
  generalize ((none, none) : Option Nat × Option Nat) = st
  intro h0
  induction ms generalizing st with
  | nil => exact h0
  | cons m rest ih => exact ih _ (utilStep_ok accept st m h0)

/-- Any assembled utilities estimate from a reachable state has accepted
bounds in order, and its average is the half-up rounding of their mean. -/
theorem assembleUtilities_ok (accept : Nat → Bool)
    (st : Option Nat × Option Nat) (h : UtilSt accept st)
    (u : UtilityEstimate) (hu : assembleUtilities st = some u) :
    accept u.min = true ∧ accept u.max = true ∧ u.min ≤ u.max ∧
      u.avg = (u.min + u.max + 1) / 2 := by
  rcases h with rfl | ⟨M, rfl, haccM⟩ | ⟨mi, M, rfl, haccmi, haccM, hle⟩
  · simp [assembleUtilities, jsTruthy] at hu
  · by_cases hM : M = 0
    · subst hM; simp [assembleUtilities, jsTruthy] at hu
    · simp [assembleUtilities, jsTruthy, hM] at hu
      obtain rfl := hu.symm
      exact ⟨haccM, haccM, le_refl _, rfl⟩
  · by_cases hmi : mi = 0
    · subst hmi
      by_cases hM : M = 0
      · subst hM; simp [assembleUtilities, jsTruthy] at hu
      · simp [assembleUtilities, jsTruthy, hM] at hu
        obtain rfl := hu.symm
        exact ⟨haccM, haccM, le_refl _, rfl⟩
    · by_cases hM : M = 0
      · subst hM
        simp [assembleUtilities, jsTruthy, hmi] at hu
        obtain rfl := hu.symm
        exact ⟨haccmi, haccmi, le_refl _, rfl⟩
      · simp [assembleUtilities, jsTruthy, hmi, hM] at hu
        obtain rfl := hu.symm
        exact ⟨haccmi, haccM, hle, rfl⟩

/-- C3 (amended to the strict revisions, otodomScraper.js lines 155-187 and
src/unnamed/part_001 lines 74-107): only values in [50, 500] are accepted
as per-person utility amounts, so min, max and avg of any produced estimate
lie in [50, 500], and a single in-band capture v yields {v, v, v}. The
src/server.js revision instead uses the looser band (20, 1000) — see the
counterexample, which models the text "media ok. 30 zł za osobę". -/
theorem hiddenUtilities_band_enforced (ms : List (Nat × Option Nat))
    (u : UtilityEstimate) (v : Nat) :
    (hiddenUtilities ms = some u →
      50 ≤ u.min ∧ u.min ≤ 500 ∧ 50 ≤ u.max ∧ u.max ≤ 500 ∧
        50 ≤ u.avg ∧ u.avg ≤ 500) ∧
    (50 ≤ v → v ≤ 500 → hiddenUtilities [(v, none)] = some ⟨v, v, v⟩) := by
  constructor
  · intro hu
    obtain ⟨h1, h2, h3, h4⟩ :=
      assembleUtilities_ok utilBand50 _ (utilFold_ok utilBand50 ms) u hu
    simp [utilBand50] at h1 h2
    omega
  · intro h1 h2
    have hne : (v != 0) = true := by simp; omega
    have hb : utilBand50 v = true := by simp [utilBand50]; omega
    simp [hiddenUtilities, utilStep, utilMinUpd, utilMaxUpd, assembleUtilities,
      jsTruthy, hne, hb]
    omega

/-- C3 counterexample: the src/server.js revision (lines 74-106) accepts
the out-of-band value 30 (as captured from "media ok. 30 zł za osobę") and
produces the estimate {30, 30, 30}, whose entries are below 50. -/
theorem serverHiddenUtilities_accepts_30 :
    serverHiddenUtilities [(30, none)] = some ⟨30, 30, 30⟩ ∧ ¬ (50 ≤ 30) := by
  decide

/-- C9: whenever either revision of the description parser produces a
hidden-utilities estimate, its bounds are ordered around the average:
min ≤ avg ≤ max, with avg the half-up rounding of (min + max) / 2 (each
bound defaults to the other when only one side was populated). -/
theorem hiddenUtilities_ordered (ms : List (Nat × Option Nat))
    (u w : UtilityEstimate) :
    (hiddenUtilities ms = some u →
      u.min ≤ u.avg ∧ u.avg ≤ u.max ∧ u.avg = (u.min + u.max + 1) / 2) ∧
    (serverHiddenUtilities ms = some w →
      w.min ≤ w.avg ∧ w.avg ≤ w.max ∧ w.avg = (w.min + w.max + 1) / 2) := by
  constructor
  · intro h
    obtain ⟨_, _, hle, havg⟩ :=
      assembleUtilities_ok utilBand50 _ (utilFold_ok utilBand50 ms) u h
    omega
  · intro h
    obtain ⟨_, _, hle, havg⟩ :=
      assembleUtilities_ok serverUtilBand _ (utilFold_ok serverUtilBand ms) w h
    omega

/-- C2 (amended to the canonical detector, server.js lines 187-203 /
otodomScraper.js lines 373-389): when both deposits exist (truthy), a
deposit_mismatch of severity high is emitted exactly when
|extracted − structured| > 0.2 · structured (a difference of exactly 20%
emits nothing), with both amounts verbatim in the message; with either
value absent nothing is emitted. The src/unnamed/part_002 revision instead
divides by max(extracted, structured) — see the counterexample. -/
theorem detect_deposit_mismatch_iff (d e : Nat) (ad : Option Nat)
    (hu : Option UtilityEstimate) (reg : Option Bool)
    (hd : d ≠ 0) (he : e ≠ 0) :
    (hasDepositMismatch (detectInconsistencies (some d) ad (some e) hu reg) =
        true ↔ 5 * Nat.dist e d > d) ∧
    (5 * Nat.dist e d > d →
      ∃ i ∈ detectInconsistencies (some d) ad (some e) hu reg,
        i.type = IncKind.deposit_mismatch ∧ i.severity = Severity.high ∧
        (Nat.repr d).toList <:+: i.message ∧ (Nat.repr e).toList <:+: i.message) ∧
    (∀ dep' ad' hu' reg',
      hasDepositMismatch (detectInconsistencies dep' ad' none hu' reg') = false) ∧
    (∀ ad' hd' hu' reg',
      hasDepositMismatch (detectInconsistencies none ad' hd' hu' reg') = false) := by
  refine ⟨⟨fun h => ?_, fun hgt => ?_⟩, fun hgt => ?_, fun dep' ad' hu' reg' => ?_, fun ad' hd' hu' reg' => ?_⟩
  · by_contra hgt
    simp only [detectInconsistencies, hasDepositMismatch, List.any_append] at h
    rw [if_neg (by tauto)] at h
    rcases hu' : hu with _ | u <;> rcases reg' : reg with _ | b <;>
      simp_all [hasDepositMismatch] <;> aesop
  · simp [detectInconsistencies, hasDepositMismatch, hd, he, hgt]
  · refine ⟨⟨IncKind.deposit_mismatch, Severity.high, depositMismatchMessage d e⟩,
      ?_, rfl, rfl, ?_, ?_⟩
    · simp [detectInconsistencies, hd, he, hgt]
    · exact ⟨"Deposit mismatch: Listed as ".toList,
        (" PLN but description mentions ".toList) ++ (Nat.repr e).toList ++
          (" PLN".toList),
        by simp [depositMismatchMessage]⟩
    · exact ⟨("Deposit mismatch: Listed as ".toList) ++ (Nat.repr d).toList ++
        (" PLN but description mentions ".toList), (" PLN".toList),
        by simp [depositMismatchMessage]⟩
  · rcases dep' with _ | d' <;> rcases hu' with _ | u <;> rcases reg' with _ | b <;>
      simp [detectInconsistencies, hasDepositMismatch]
  · rcases hd' with _ | e' <;> rcases hu' with _ | u <;> rcases reg' with _ | b <;>
      simp [detectInconsistencies, hasDepositMismatch]

/-- C2 counterexample: the src/unnamed/part_002 revision (lines 143-159),
given structured deposit 1000 and extracted deposit 1210, emits nothing —
its threshold divides by max(extracted, structured) — although
|1210 − 1000| = 210 exceeds 20% of the structured deposit. -/
theorem part002_mismatch_boundary_gap :
    part002DetectDepositMismatch (some 1000) (some 1210) = [] ∧
      5 * Nat.dist 1210 1000 > 1000 := by decide

/-- Witness for C2 at structured deposit 1000: an extracted 1300 (30% off)
is flagged, an extracted 1200 (exactly 20% off) is not. -/
theorem detect_deposit_mismatch_iff_witness :
    hasDepositMismatch
        (detectInconsistencies (some 1000) none (some 1300) none none) = true ∧
    hasDepositMismatch
        (detectInconsistencies (some 1000) none (some 1200) none none) = false := by
  constructor
  · exact (detect_deposit_mismatch_iff 1000 1300 none none none (by decide)
      (by decide)).1.mpr (by decide)
  · have h := (detect_deposit_mismatch_iff 1000 1200 none none none (by decide)
      (by decide)).1
    have hn : ¬ (5 * Nat.dist 1200 1000 > 1000) := by decide
    exact Bool.eq_false_iff.mpr (fun hc => hn (h.mp hc))

/-- C7 (code evaluation at the failing input): the registration block is
gated on `includes('zameldowanie') || includes('registration') ||
includes('meldun')`, and none of these occurs in the genitive phrase
"bez zameldowania", so a description containing only that phrase leaves
registrationAllowed null — no no_registration inconsistency and no +2 —
although the code's own negation list contains the phrase. When the gate
keyword does occur (for example the nominative "zameldowanie" elsewhere in
the text), the same phrase resolves the flag to false, the detector emits
the medium no_registration record, and the disallowed registration adds
exactly 2 to the risk score. -/
theorem bez_zameldowania_gate_bug :
    includes ("bez zameldowania".toList) ("bez zameldowania".toList) = true ∧
    classifyRegistration ("bez zameldowania".toList) = none ∧
    detectInconsistencies none none none none
      (classifyRegistration ("bez zameldowania".toList)) = [] ∧
    classifyRegistration ("zameldowanie? bez zameldowania".toList) = some false ∧
    (∃ i ∈ detectInconsistencies none none none none
        (classifyRegistration ("zameldowanie? bez zameldowania".toList)),
      i.type = IncKind.no_registration ∧ i.severity = Severity.medium) ∧
    riskScore emptySummary { emptyAnalysis with registrationAllowed := some false } =
      riskScore emptySummary { emptyAnalysis with registrationAllowed := none } + 2 := by
  refine ⟨by decide, by decide, by decide, by decide, ?_, by decide⟩
  refine ⟨⟨IncKind.no_registration, Severity.medium, noRegistrationMessage⟩, ?_, rfl, rfl⟩
  have hreg : classifyRegistration ("zameldowanie? bez zameldowania".toList) =
      some false := by decide
  rw [hreg]
  simp [detectInconsistencies]

/-- Members of a first digit-or-whitespace run come from the scanned list
and satisfy the class test. -/
theorem firstAmountRun_mem (cs run : List Char)
    (h : firstAmountRun cs = some run) :
    ∀ c ∈ run, c ∈ cs ∧ parsePLNChar c = true := by
  induction cs with
  | nil => simp [firstAmountRun] at h
  | cons x xs ih =>
    cases hx : parsePLNChar x with
    | true =>
      simp [firstAmountRun, hx] at h
      subst h
      intro c hc
      rcases List.mem_cons.mp hc with rfl | hc
      · exact ⟨List.mem_cons_self _ _, hx⟩
      · exact ⟨List.mem_cons_of_mem _ ((List.takeWhile_sublist _).subset hc),
          List.mem_takeWhile_imp hc⟩
    | false =>
      simp [firstAmountRun, hx] at h
      intro c hc
      obtain ⟨h1, h2⟩ := ih h c hc
      exact ⟨List.mem_cons_of_mem _ h1, h2⟩

/-- C8: the core is total over optional inputs: a null string parses to
null, a string with no digit characters parses to null rather than a NaN,
the empty description (no captures, no keywords) yields the all-absent
parse result, the detector emits nothing on all-absent inputs, and the
all-absent request scores exactly the four unset-field penalties:
score 4, level Medium, confidence 80. -/
theorem parser_total_on_empty :
    parsePLNAmount none = none ∧
    (∀ cs : List Char, (∀ c ∈ cs, c.isDigit = false) →
        parsePLNAmount (some cs) = none) ∧
    parseDescriptionForHiddenInfo [] noCaptures =
      ⟨none, none, none, false, none, none, [], 0⟩ ∧
    detectInconsistencies none none none none none = [] ∧
    assessRisk emptySummary emptyAnalysis = (Level.Medium, 4, 80) := by
  refine ⟨rfl, ?_, by decide, rfl, by decide⟩
  intro cs hnd
  have hflt : ∀ run, firstAmountRun cs = some run →
      run.filter (fun c => !c.isWhitespace) = [] := by
    intro run hr
    rw [List.filter_eq_nil_iff]
    intro c hc
    obtain ⟨hin, hcls⟩ := firstAmountRun_mem cs run hr c hc
    have hdig : c.isDigit = false := hnd c hin
    simp [parsePLNChar, hdig] at hcls
    simp [hcls]
  unfold parsePLNAmount
  cases hemp : cs.isEmpty with
  | true => simp [hemp]
  | false =>
    cases hr : firstAmountRun cs with
    | none => simp [hemp, hr]
    | some run => simp [hemp, hr, hflt run hr]

/-- Every fee in the list after the TV stage is an internet or tv entry. -/
theorem tvFees_internetFees_types (im tm : Option FeeMatch) :
    ∀ f ∈ tvFees tm (internetFees im),
      f.type = FeeType.internet ∨ f.type = FeeType.tv := by
  intro f hf
  rcases im with _ | i <;> rcases tm with _ | t <;>
    unfold internetFees tvFees at hf <;> dsimp only at hf <;>
    (try split_ifs at hf) <;> simp_all

/-- After the TV stage at most one internet/tv/internet_tv entry exists. -/
theorem tvFees_internetFees_countP (im tm : Option FeeMatch) :
    (tvFees tm (internetFees im)).countP
      (fun f => f.type == FeeType.internet || f.type == FeeType.tv ||
        f.type == FeeType.internet_tv) ≤ 1 := by
  rcases im with _ | i <;> rcases tm with _ | t <;>
    unfold internetFees tvFees <;> dsimp only <;>
    (try split_ifs) <;>
    simp_all [List.countP_cons, List.countP_nil, List.countP_append]

/-- C10: the produced additionalFees list holds at most one entry of the
types internet / tv / internet_tv (a TV fee is only considered when no
internet fee was accepted, and an accepted combined fee removes both
individual entries), and when a combined internet+TV fee in band [60, 250]
is matched the final list holds no individual internet or tv entry. -/
theorem additionalFees_exclusive (im tm : Option FeeMatch) (cm : Option Nat)
    (pm : Option FeeMatch) :
    (additionalFees im tm cm pm).countP
        (fun f => f.type == FeeType.internet || f.type == FeeType.tv ||
          f.type == FeeType.internet_tv) ≤ 1 ∧
    (∀ a, cm = some a → 60 ≤ a → a ≤ 250 →
      ∀ f ∈ additionalFees im tm cm pm,
        f.type ≠ FeeType.internet ∧ f.type ≠ FeeType.tv) := by
  have hcombo : (comboFees cm (tvFees tm (internetFees im))).countP
      (fun f => f.type == FeeType.internet || f.type == FeeType.tv ||
        f.type == FeeType.internet_tv) ≤ 1 := by
    rcases cm with _ | a
    · exact tvFees_internetFees_countP im tm
    · unfold comboFees
      dsimp only
      split_ifs with h
      · have hnil : (tvFees tm (internetFees im)).filter
            (fun f => decide (f.type ≠ FeeType.internet ∧ f.type ≠ FeeType.tv)) =
            [] := by
          rw [List.filter_eq_nil_iff]
          intro f hf
          rcases tvFees_internetFees_types im tm f hf with h1 | h1 <;> simp [h1]
        rw [hnil]
        simp
      · exact tvFees_internetFees_countP im tm
  constructor
  · unfold additionalFees parkingFees
    rcases pm with _ | p
    · exact hcombo
    · dsimp only
      split_ifs with h
      · simpa [List.countP_append] using hcombo
      · exact hcombo
  · intro a hca h60 h250 f hf
    subst hca
    have key : ∀ g ∈ comboFees (some a) (tvFees tm (internetFees im)),
        g.type ≠ FeeType.internet ∧ g.type ≠ FeeType.tv := by
      intro g hg
      unfold comboFees at hg
      dsimp only at hg
      rw [if_pos ⟨h60, h250⟩] at hg
      rcases List.mem_append.mp hg with hg | hg
      · simpa using (List.mem_filter.mp hg).2
      · simp only [List.mem_singleton] at hg
        subst hg
        simp
    unfold additionalFees parkingFees at hf
    rcases pm with _ | p
    · exact key f hf
    · dsimp only at hf
      split_ifs at hf with h
      · rcases List.mem_append.mp hf with hf | hf
        · exact key f hf
        · simp only [List.mem_singleton] at hf
          subst hf
          simp
      · exact key f hf
